import Mathlib

/-!
Shallow embedding of the portfolio risk-analytics engine and the shared
economic-analysis context of the repository under verification.

Sources embedded:
* src/agents/portfolio_risk/portfolio.py  (Position, Portfolio)
* src/agents/portfolio_risk/tools.py      (RiskCalculator)
* src/agents/economic_swarm/models.py     (Sensitivity, CompanyExposure,
  EconomicIndicator, RiskAssessment, EconomicContext)
* src/agents/economic_swarm/tools.py      (EconomicDataProvider.analyze_systemic_risk)

Python floats are modelled as rationals.  Python's two-decimal rounding
round(x, 2) is modelled by round2 below, which rounds half away from the
even-tie convention only at exact two-decimal midpoints; no computation in
this development hits such a midpoint.  String-formatting-only payload
fields (percent strings, interpretation text) are modelled by the
underlying numbers or omitted, as noted at each record.
-/

/-- Model of Python round(x, 2)'s underlying integer rounding: round to the
nearest integer, computably on rationals via Rat.floor. -/
def py_round (x : ℚ) : ℤ := Rat.floor (x + 1/2)

/-- Model of Python round(x, 2): round to two decimal places. -/
def round2 (x : ℚ) : ℚ := (py_round (x * 100) : ℚ) / 100

theorem ratFloor_eq_floor (q : ℚ) : Rat.floor q = ⌊q⌋ := by
  rw [Rat.floor_def, Rat.floor_def']

theorem py_round_eq_round (x : ℚ) : py_round x = round x := by
  rw [py_round, round_eq, ratFloor_eq_floor]

theorem round2_mono {x y : ℚ} (h : x ≤ y) : round2 x ≤ round2 y := by
  unfold round2
  rw [py_round_eq_round, py_round_eq_round]
  have h1 : round (x * 100) ≤ round (y * 100) := by
    rw [round_eq, round_eq]
    exact Int.floor_mono (by linarith)
  have h2 : ((round (x * 100) : ℤ) : ℚ) ≤ ((round (y * 100) : ℤ) : ℚ) := by
    exact_mod_cast h1
  linarith

theorem abs_round2_sub (x : ℚ) : |round2 x - x| ≤ 1/200 := by
  unfold round2
  rw [py_round_eq_round]
  have h := abs_sub_round (x * 100)
  rw [abs_sub_comm] at h
  have e : ((round (x*100) : ℤ) : ℚ)/100 - x = (((round (x*100) : ℤ) : ℚ) - x*100)/100 := by
    ring
  rw [e, abs_div]
  have h100 : |(100 : ℚ)| = 100 := by norm_num
  rw [h100]
  linarith

theorem round2_intCast_div (k : ℤ) : round2 ((k : ℚ)/100) = (k : ℚ)/100 := by
  unfold round2
  have e : ((k : ℚ)/100) * 100 = (k : ℚ) := by
    field_simp
  rw [e, py_round_eq_round, round_intCast]

/-! ## Position and Portfolio (src/agents/portfolio_risk/portfolio.py) -/

/-- Portfolio position with analytics. -/
structure Position where
  symbol : String
  shares : ℤ
  buy_price : ℚ
  current_price : ℚ
deriving DecidableEq, Repr

/-- Current position value: shares * current_price. -/
def Position.value (p : Position) : ℚ := p.shares * p.current_price

/-- Total cost basis: shares * buy_price. -/
def Position.cost_basis (p : Position) : ℚ := p.shares * p.buy_price

/-- Profit and loss. -/
def Position.pnl (p : Position) : ℚ := p.value - p.cost_basis

/-- Portfolio: list of positions (insertion order, duplicate symbols allowed)
plus the internal cached-metrics slot; the source only ever stores None in
the slot, so it is modelled by Option Unit. -/
structure Portfolio where
  positions : List Position
  risk_metrics : Option Unit
deriving DecidableEq, Repr

/-- Total portfolio value: sum of position values. -/
def Portfolio.total_value (pf : Portfolio) : ℚ := (pf.positions.map Position.value).sum

/-- Python dict insertion: updating an existing key keeps its position and
replaces its value; a new key is appended.  Used to model both the dict
comprehension in Portfolio.concentration and the keyed stores of
EconomicContext. -/
def dict_insert {β : Type} (k : String) (v : β) : List (String × β) → List (String × β)
  | [] => [(k, v)]
  | (k', v') :: rest => if k' = k then (k, v) :: rest else (k', v') :: dict_insert k v rest

/-- Python max(positions, key=lambda p: p.value): first maximal element,
replaced only on strictly greater value. -/
def max_by_value (p : Position) (ps : List Position) : Position :=
  ps.foldl (fun best q => if best.value < q.value then q else best) p

/-- Return value of Portfolio.concentration. -/
structure ConcentrationResult where
  max : ℚ
  symbol : Option String
  value : ℚ
  positions : List (String × ℚ)
deriving DecidableEq, Repr

/-- Portfolio.concentration: per-symbol share of total value (two decimals),
the maximum single position and its symbol; all-zero/empty structure when
the portfolio is empty or has zero total value. -/
def Portfolio.concentration (pf : Portfolio) : ConcentrationResult :=
  match pf.positions with
  | [] => ⟨0, none, 0, []⟩
  | p :: ps =>
    if pf.total_value = 0 then ⟨0, none, 0, []⟩
    else
      let maxPos := max_by_value p ps
      { max := round2 (maxPos.value / pf.total_value * 100)
        symbol := some maxPos.symbol
        value := round2 maxPos.value
        positions := (p :: ps).foldl
          (fun d q => dict_insert q.symbol (round2 (q.value / pf.total_value * 100)) d) [] }

/-- Portfolio.diversification_score: 0 for at most one position, otherwise
100 minus twice the distance of the maximum concentration from the
equal-weight ideal, clamped at 0 and rounded to two decimals. -/
def Portfolio.diversification_score (pf : Portfolio) : ℚ :=
  if pf.positions.length ≤ 1 then 0
  else
    let max_concentration := pf.concentration.max
    let ideal_concentration : ℚ := 100 / pf.positions.length
    round2 (max 0 (100 - |max_concentration - ideal_concentration| * 2))

/-! ## RiskCalculator (src/agents/portfolio_risk/tools.py) -/

/-- Risk level categories of the portfolio domain. -/
inductive RiskLevel where
  | LOW
  | MODERATE
  | HIGH
  | CRITICAL
deriving DecidableEq, Repr

/-- Numeric fields of the payload returned by a successful calculate_var
call; the confidence and volatility percent strings of the source are
modelled by the underlying numbers, and the interpretation string is
omitted (presentation only). -/
structure VarPayload where
  portfolio_value : ℚ
  var : ℚ
  confidence : ℚ
  volatility : ℚ
deriving DecidableEq, Repr

/-- Result of calculate_var: either the error record or the payload. -/
inductive VarResult where
  | error (msg : String)
  | ok (p : VarPayload)
deriving DecidableEq, Repr

/-- Lookup in the z_scores dict with default 1.65, as in
z_scores.get(confidence, 1.65) with z_scores = 0.95 to 1.65, 0.99 to 2.33. -/
def z_scores_get (confidence : ℚ) : ℚ :=
  if confidence = 95/100 then 165/100
  else if confidence = 99/100 then 233/100
  else 165/100

/-- RiskCalculator.calculate_var.  The method only reads the portfolio, so
the state-passing embedding returns it unchanged alongside the result. -/
def RiskCalculator.calculate_var (pf : Portfolio) (confidence volatility : ℚ) :
    VarResult × Portfolio :=
  if pf.total_value = 0 then (VarResult.error "Empty portfolio", pf)
  else
    let z := z_scores_get confidence
    let var := pf.total_value * volatility * z
    (VarResult.ok ⟨round2 pf.total_value, round2 var, confidence * 100, volatility * 100⟩, pf)

/-- Observation of the var field of a VarResult (0 on the error record). -/
def var_of : VarResult → ℚ
  | VarResult.error _ => 0
  | VarResult.ok p => p.var

/-- Structured fields of the payload returned by assess_concentration_risk;
the max-concentration percent string is modelled by the underlying number
and the recommendation strings are omitted (presentation only). -/
structure ConcentrationAssessment where
  max_concentration : ℚ
  largest_position : Option String
  risk_level : RiskLevel
  diversification_score : ℚ
  position_weights : List (String × ℚ)
deriving DecidableEq, Repr

/-- RiskCalculator.assess_concentration_risk.  Reads the portfolio only, so
the state-passing embedding returns it unchanged alongside the result. -/
def RiskCalculator.assess_concentration_risk (pf : Portfolio) :
    ConcentrationAssessment × Portfolio :=
  let conc := pf.concentration
  let max_conc := conc.max
  let risk_level :=
    if max_conc > 40 then RiskLevel.CRITICAL
    else if max_conc > 30 then RiskLevel.HIGH
    else if max_conc > 20 then RiskLevel.MODERATE
    else RiskLevel.LOW
  (⟨max_conc, conc.symbol, risk_level, pf.diversification_score, conc.positions⟩, pf)

/-! ## Economic swarm models (src/agents/economic_swarm/models.py) -/

/-- Risk level classifications of the economic domain; the source names
this enum RiskLevel as well, in a different module and with different
vocabulary, and the two must stay distinct types. -/
inductive EconomicRiskLevel where
  | low
  | medium
  | high
  | critical
deriving DecidableEq, Repr

/-- Sensitivity levels. -/
inductive Sensitivity where
  | low
  | medium
  | high
  | positive
  | negative
deriving DecidableEq, Repr

/-- Economic indicator with metadata; the datetime timestamp is modelled
as a natural number. -/
structure EconomicIndicator where
  name : String
  value : ℚ
  unit : String
  trend : String
  risk : EconomicRiskLevel
  timestamp : Nat
deriving DecidableEq, Repr

/-- Company exposure to economic factors. -/
structure CompanyExposure where
  ticker : String
  interest_rate_sensitivity : Sensitivity
  inflation_sensitivity : Sensitivity
  volatility_sensitivity : Sensitivity
  debt_to_equity : ℚ
  international_revenue : ℚ
deriving DecidableEq, Repr

/-- CompanyExposure.risk_score: sequential accumulation exactly as in the
source (score starts at 0 and each factor adds its contribution). -/
def CompanyExposure.risk_score (e : CompanyExposure) : ℕ :=
  let score : ℕ := 0
  let score := score +
    (if e.interest_rate_sensitivity = Sensitivity.high then 3
     else if e.interest_rate_sensitivity = Sensitivity.medium then 2 else 0)
  let score := score +
    (if e.inflation_sensitivity = Sensitivity.high ∨
        e.inflation_sensitivity = Sensitivity.negative then 2
     else if e.inflation_sensitivity = Sensitivity.medium then 1 else 0)
  let score := score +
    (if e.volatility_sensitivity = Sensitivity.high then 2
     else if e.volatility_sensitivity = Sensitivity.medium then 1 else 0)
  let score := score +
    (if e.debt_to_equity > 2 then 3
     else if e.debt_to_equity > 1 then 1 else 0)
  let score := score + (if e.international_revenue > 1/2 then 1 else 0)
  score

/-- Risk assessment results; the datetime timestamp is modelled as a
natural number. -/
structure RiskAssessment where
  risk_level : EconomicRiskLevel
  risk_score : ℤ
  risk_factors : List String
  affected_companies : List String
  recommendations : List String
  timestamp : Nat
deriving DecidableEq, Repr

/-- Payload snapshot carried by an event-log entry: the to_dict serialization
of the added record, modelled by the immutable record itself. -/
inductive EventData where
  | indicator (d : EconomicIndicator)
  | exposure (d : CompanyExposure)
  | assessment (d : RiskAssessment)
deriving DecidableEq, Repr

/-- One entry of the analysis_history event log; the datetime.now() stamp
taken inside the log call is modelled as a natural number passed in by the
caller. -/
structure LogEvent where
  event : String
  data : EventData
  timestamp : Nat
deriving DecidableEq, Repr

/-- Shared context for swarm agents: the two keyed stores, the assessment
list and the append-only event log. -/
structure EconomicContext where
  indicators : List (String × EconomicIndicator)
  company_exposures : List (String × CompanyExposure)
  risk_assessments : List RiskAssessment
  analysis_history : List LogEvent
deriving DecidableEq, Repr

/-- EconomicContext._log_event: append one entry to analysis_history. -/
def EconomicContext.log_event (ctx : EconomicContext) (event_type : String)
    (data : EventData) (now : Nat) : EconomicContext :=
  { ctx with analysis_history := ctx.analysis_history ++ [⟨event_type, data, now⟩] }

/-- EconomicContext.add_indicator: store under the indicator's name and log. -/
def EconomicContext.add_indicator (ctx : EconomicContext) (indicator : EconomicIndicator)
    (now : Nat) : EconomicContext :=
  ({ ctx with indicators := dict_insert indicator.name indicator ctx.indicators }).log_event
    "indicator_added" (EventData.indicator indicator) now

/-- EconomicContext.add_company_exposure: store under the ticker and log. -/
def EconomicContext.add_company_exposure (ctx : EconomicContext) (exposure : CompanyExposure)
    (now : Nat) : EconomicContext :=
  ({ ctx with
      company_exposures := dict_insert exposure.ticker exposure ctx.company_exposures }).log_event
    "exposure_added" (EventData.exposure exposure) now

/-- EconomicContext.add_risk_assessment: append to the list and log. -/
def EconomicContext.add_risk_assessment (ctx : EconomicContext) (assessment : RiskAssessment)
    (now : Nat) : EconomicContext :=
  ({ ctx with risk_assessments := ctx.risk_assessments ++ [assessment] }).log_event
    "risk_assessed" (EventData.assessment assessment) now

/-- EconomicContext.get_high_risk_indicators: indicators whose risk is high
or critical, in store order. -/
def EconomicContext.get_high_risk_indicators (ctx : EconomicContext) : List EconomicIndicator :=
  (ctx.indicators.map Prod.snd).filter
    (fun ind => decide (ind.risk = EconomicRiskLevel.high ∨ ind.risk = EconomicRiskLevel.critical))

/-- EconomicContext.get_vulnerable_companies: tickers whose exposure has
risk_score strictly above 5. -/
def EconomicContext.get_vulnerable_companies (ctx : EconomicContext) : List String :=
  ctx.company_exposures.filterMap
    (fun kv => if kv.2.risk_score > 5 then some kv.1 else none)

/-- EconomicContext.get_latest_assessment: last appended assessment if any. -/
def EconomicContext.get_latest_assessment (ctx : EconomicContext) : Option RiskAssessment :=
  ctx.risk_assessments.getLast?

/-- Return value of EconomicContext.summary. -/
structure ContextSummary where
  indicators_collected : ℕ
  companies_analyzed : ℕ
  risk_assessments : ℕ
  high_risk_indicators : ℕ
  vulnerable_companies : List String
  latest_risk_level : Option EconomicRiskLevel
  events_logged : ℕ
deriving DecidableEq, Repr

/-- EconomicContext.summary. -/
def EconomicContext.summary (ctx : EconomicContext) : ContextSummary :=
  { indicators_collected := ctx.indicators.length
    companies_analyzed := ctx.company_exposures.length
    risk_assessments := ctx.risk_assessments.length
    high_risk_indicators := ctx.get_high_risk_indicators.length
    vulnerable_companies := ctx.get_vulnerable_companies
    latest_risk_level := ctx.get_latest_assessment.map RiskAssessment.risk_level
    events_logged := ctx.analysis_history.length }

/-! ## Systemic risk analysis (src/agents/economic_swarm/tools.py) -/

/-- Return value of EconomicDataProvider.analyze_systemic_risk. -/
structure SystemicRiskAnalysis where
  systemic_level : String
  systemic_score : ℕ
  high_risk_indicators : List String
  vulnerable_companies : List String
  recommended_actions : List String
  context_summary : ContextSummary
deriving DecidableEq, Repr

/-- EconomicDataProvider.analyze_systemic_risk.  The method only reads the
context, so the state-passing embedding returns it unchanged alongside the
result. -/
def EconomicDataProvider.analyze_systemic_risk (ctx : EconomicContext) :
    SystemicRiskAnalysis × EconomicContext :=
  let high_risk_indicators := ctx.get_high_risk_indicators
  let vulnerable_companies := ctx.get_vulnerable_companies
  let systemic_score := high_risk_indicators.length * 2 + vulnerable_companies.length
  let level_actions : String × List String :=
    if systemic_score > 6 then
      ("CRITICAL",
        ["Reduce overall portfolio exposure",
         "Implement defensive strategies",
         "Increase cash allocation"])
    else if systemic_score > 3 then
      ("ELEVATED",
        ["Review and adjust positions",
         "Consider protective hedges",
         "Monitor daily"])
    else
      ("NORMAL",
        ["Maintain positions",
         "Regular monitoring",
         "Stay informed"])
  (⟨level_actions.1, systemic_score,
    high_risk_indicators.map EconomicIndicator.name,
    vulnerable_companies, level_actions.2, ctx.summary⟩, ctx)

/-- Mutating operations of EconomicContext, for stating the event-log
invariant over arbitrary call sequences. -/
inductive ContextOp where
  | add_ind (i : EconomicIndicator) (now : Nat)
  | add_exp (e : CompanyExposure) (now : Nat)
  | add_assess (a : RiskAssessment) (now : Nat)

/-- Apply one mutating operation. -/
def apply_op (ctx : EconomicContext) : ContextOp → EconomicContext
  | ContextOp.add_ind i now => ctx.add_indicator i now
  | ContextOp.add_exp e now => ctx.add_company_exposure e now
  | ContextOp.add_assess a now => ctx.add_risk_assessment a now

/-- Apply a sequence of mutating operations in order. -/
def apply_ops (ctx : EconomicContext) (ops : List ContextOp) : EconomicContext :=
  ops.foldl apply_op ctx

/-! ## Helper lemmas -/

theorem max_by_value_spec : ∀ (ps : List Position) (p : Position),
    (max_by_value p ps = p ∨ max_by_value p ps ∈ ps) ∧
    p.value ≤ (max_by_value p ps).value ∧
    ∀ q ∈ ps, q.value ≤ (max_by_value p ps).value
  | [], p => by
    refine ⟨Or.inl rfl, le_refl _, ?_⟩
    intro q hq
    simp at hq
  | q :: qs, p => by
    have step : max_by_value p (q :: qs)
        = max_by_value (if p.value < q.value then q else p) qs := by
      unfold max_by_value
      simp [List.foldl_cons]
    by_cases hlt : p.value < q.value
    · rw [if_pos hlt] at step
      rcases max_by_value_spec qs q with ⟨hmem, hstart, hall⟩
      rw [step]
      refine ⟨?_, ?_, ?_⟩
      · rcases hmem with h | h
        · exact Or.inr (by rw [h]; exact List.mem_cons_self q qs)
        · exact Or.inr (List.mem_cons_of_mem q h)
      · exact le_trans (le_of_lt hlt) hstart
      · intro r hr
        rcases List.mem_cons.mp hr with h | h
        · subst h
          exact hstart
        · exact hall r h
    · rw [if_neg hlt] at step
      rcases max_by_value_spec qs p with ⟨hmem, hstart, hall⟩
      rw [step]
      refine ⟨?_, ?_, ?_⟩
      · rcases hmem with h | h
        · exact Or.inl h
        · exact Or.inr (List.mem_cons_of_mem q h)
      · exact hstart
      · intro r hr
        rcases List.mem_cons.mp hr with h | h
        · subst h
          exact le_trans (le_of_not_lt hlt) hstart
        · exact hall r h

theorem dict_insert_fresh {β : Type} (k : String) (v : β) :
    ∀ (d : List (String × β)), k ∉ d.map Prod.fst → dict_insert k v d = d ++ [(k, v)]
  | [], _ => rfl
  | (k', v') :: rest, h => by
    have hk : k' ≠ k := by
      intro he
      exact h (by simp [he])
    have hrest : k ∉ rest.map Prod.fst := by
      intro hm
      exact h (by simp [hm])
    simp [dict_insert, hk, dict_insert_fresh k v rest hrest]

theorem dict_build_nodup (f : Position → ℚ) :
    ∀ (l : List Position) (d : List (String × ℚ)),
      (l.map Position.symbol).Nodup →
      (∀ q ∈ l, q.symbol ∉ d.map Prod.fst) →
      l.foldl (fun acc q => dict_insert q.symbol (f q) acc) d
        = d ++ l.map (fun q => (q.symbol, f q))
  | [], d, _, _ => by simp
  | p :: l, d, hnd, hfresh => by
    have hp : p.symbol ∉ d.map Prod.fst := hfresh p (List.mem_cons_self p l)
    have hnd' : (l.map Position.symbol).Nodup := by
      simp only [List.map_cons, List.nodup_cons] at hnd
      exact hnd.2
    have hhead : p.symbol ∉ l.map Position.symbol := by
      simp only [List.map_cons, List.nodup_cons] at hnd
      exact hnd.1
    have hfresh' : ∀ q ∈ l, q.symbol ∉ (d ++ [(p.symbol, f p)]).map Prod.fst := by
      intro q hq
      simp only [List.map_append, List.mem_append]
      intro hmem
      rcases hmem with h | h
      · exact hfresh q (List.mem_cons_of_mem p hq) h
      · simp at h
        exact hhead (h ▸ List.mem_map_of_mem Position.symbol hq)
    calc (p :: l).foldl (fun acc q => dict_insert q.symbol (f q) acc) d
        = l.foldl (fun acc q => dict_insert q.symbol (f q) acc) (d ++ [(p.symbol, f p)]) := by
          simp [List.foldl_cons, dict_insert_fresh p.symbol (f p) d hp]
      _ = (d ++ [(p.symbol, f p)]) ++ l.map (fun q => (q.symbol, f q)) :=
          dict_build_nodup f l (d ++ [(p.symbol, f p)]) hnd' hfresh'
      _ = d ++ (p :: l).map (fun q => (q.symbol, f q)) := by
          simp

theorem sum_map_round2_close : ∀ (l : List ℚ),
    |(l.map round2).sum - l.sum| ≤ l.length * (1/200)
  | [] => by simp
  | a :: l => by
    have ih := sum_map_round2_close l
    have ha := abs_round2_sub a
    have e : (((a :: l).map round2).sum - (a :: l).sum)
        = (round2 a - a) + ((l.map round2).sum - l.sum) := by
      simp [List.map_cons, List.sum_cons]
      ring
    calc |(((a :: l).map round2).sum - (a :: l).sum)|
        ≤ |round2 a - a| + |(l.map round2).sum - l.sum| := by
          rw [e]
          exact abs_add _ _
      _ ≤ 1/200 + l.length * (1/200) := add_le_add ha ih
      _ = (a :: l).length * (1/200) := by
          simp [List.length_cons]
          ring

theorem sum_map_value_mul (c : ℚ) : ∀ (l : List Position),
    (l.map (fun q => q.value * c)).sum = (l.map Position.value).sum * c
  | [] => by simp
  | p :: l => by
    simp [List.map_cons, List.sum_cons, sum_map_value_mul c l]
    ring

theorem concentration_eq (pf : Portfolio) (p : Position) (ps : List Position)
    (hl : pf.positions = p :: ps) (hT : pf.total_value ≠ 0) :
    pf.concentration
      = { max := round2 ((max_by_value p ps).value / pf.total_value * 100)
          symbol := some (max_by_value p ps).symbol
          value := round2 (max_by_value p ps).value
          positions := (p :: ps).foldl
            (fun d q => dict_insert q.symbol (round2 (q.value / pf.total_value * 100)) d) [] } := by
  simp only [Portfolio.concentration, hl]
  rw [if_neg hT]

theorem concentration_zero (pf : Portfolio) (hT : pf.total_value = 0) :
    pf.concentration = ⟨0, none, 0, []⟩ := by
  cases hl : pf.positions with
  | nil => simp only [Portfolio.concentration, hl]
  | cons p ps =>
    simp only [Portfolio.concentration, hl]
    rw [if_pos hT]

theorem apply_op_history_succ (ctx : EconomicContext) (op : ContextOp) :
    (apply_op ctx op).analysis_history.length = ctx.analysis_history.length + 1 := by
  cases op <;>
    simp [apply_op, EconomicContext.add_indicator, EconomicContext.add_company_exposure,
      EconomicContext.add_risk_assessment, EconomicContext.log_event]

theorem apply_ops_history_length : ∀ (ops : List ContextOp) (ctx : EconomicContext),
    (apply_ops ctx ops).analysis_history.length = ctx.analysis_history.length + ops.length
  | [], ctx => by simp [apply_ops]
  | op :: ops, ctx => by
    have ih := apply_ops_history_length ops (apply_op ctx op)
    calc (apply_ops ctx (op :: ops)).analysis_history.length
        = (apply_ops (apply_op ctx op) ops).analysis_history.length := by
          simp [apply_ops]
      _ = (apply_op ctx op).analysis_history.length + ops.length := ih
      _ = ctx.analysis_history.length + (op :: ops).length := by
          rw [apply_op_history_succ]
          simp [List.length_cons]
          omega

/-- Claim C1: each of add_indicator, add_company_exposure and
add_risk_assessment updates its primary storage (name-keyed indicator map,
ticker-keyed exposure map, appended assessment list), leaves the other two
stores untouched, and appends exactly one entry to the analysis_history
event log; the read-only analyze_systemic_risk call leaves the context
unchanged; hence any sequence of k mutating calls grows the event log by
exactly k entries. -/
theorem context_mutators_log_one_event :
    ∀ (ctx : EconomicContext) (i : EconomicIndicator) (e : CompanyExposure)
      (a : RiskAssessment) (now : Nat) (ops : List ContextOp),
      (ctx.add_indicator i now).indicators = dict_insert i.name i ctx.indicators ∧
      (ctx.add_indicator i now).company_exposures = ctx.company_exposures ∧
      (ctx.add_indicator i now).risk_assessments = ctx.risk_assessments ∧
      (ctx.add_indicator i now).analysis_history
        = ctx.analysis_history ++ [⟨"indicator_added", EventData.indicator i, now⟩] ∧
      (ctx.add_company_exposure e now).company_exposures
        = dict_insert e.ticker e ctx.company_exposures ∧
      (ctx.add_company_exposure e now).indicators = ctx.indicators ∧
      (ctx.add_company_exposure e now).risk_assessments = ctx.risk_assessments ∧
      (ctx.add_company_exposure e now).analysis_history
        = ctx.analysis_history ++ [⟨"exposure_added", EventData.exposure e, now⟩] ∧
      (ctx.add_risk_assessment a now).risk_assessments = ctx.risk_assessments ++ [a] ∧
      (ctx.add_risk_assessment a now).indicators = ctx.indicators ∧
      (ctx.add_risk_assessment a now).company_exposures = ctx.company_exposures ∧
      (ctx.add_risk_assessment a now).analysis_history
        = ctx.analysis_history ++ [⟨"risk_assessed", EventData.assessment a, now⟩] ∧
      (EconomicDataProvider.analyze_systemic_risk ctx).2 = ctx ∧
      (apply_ops ctx ops).analysis_history.length
        = ctx.analysis_history.length + ops.length := by
  intro ctx i e a now ops
  exact ⟨rfl, rfl, rfl, rfl, rfl, rfl, rfl, rfl, rfl, rfl, rfl, rfl, rfl,
    apply_ops_history_length ops ctx⟩

/-- Claim C4: on a portfolio with zero total value, calculate_var returns
the error record (no exception channel exists in the embedding: the result
type is a plain value) and leaves the portfolio, including its positions
and cached-metrics slot, unchanged. -/
theorem calculate_var_empty_portfolio :
    ∀ (pf : Portfolio) (confidence volatility : ℚ),
      pf.total_value = 0 →
      RiskCalculator.calculate_var pf confidence volatility
        = (VarResult.error "Empty portfolio", pf) := by
  intro pf c v h
  simp [RiskCalculator.calculate_var, h]

/-- The empty portfolio. -/
def pf_empty : Portfolio := ⟨[], none⟩

theorem calculate_var_empty_portfolio_witness :
    pf_empty.total_value = 0 ∧
    RiskCalculator.calculate_var pf_empty (95/100) (2/100)
      = (VarResult.error "Empty portfolio", pf_empty) := by
  have h : pf_empty.total_value = 0 := by
    simp [pf_empty, Portfolio.total_value]
  exact ⟨h, calculate_var_empty_portfolio pf_empty (95/100) (2/100) h⟩

/-- Claim C3: on a portfolio with nonzero total value, calculate_var
returns the success payload whose var field is the two-decimal rounding of
total_value * volatility * z, where the z-score is 1.65 for confidence
0.95, 2.33 for confidence 0.99, and falls back to 1.65 for every other
confidence value. -/
theorem calculate_var_zscore_formula :
    ∀ (pf : Portfolio) (confidence volatility : ℚ),
      pf.total_value ≠ 0 →
      (RiskCalculator.calculate_var pf confidence volatility).1
        = VarResult.ok ⟨round2 pf.total_value,
            round2 (pf.total_value * volatility * z_scores_get confidence),
            confidence * 100, volatility * 100⟩ ∧
      (confidence = 95/100 → z_scores_get confidence = 165/100) ∧
      (confidence = 99/100 → z_scores_get confidence = 233/100) ∧
      (confidence ≠ 95/100 → confidence ≠ 99/100 → z_scores_get confidence = 165/100) := by
  intro pf c v h
  refine ⟨?_, ?_, ?_, ?_⟩
  · simp [RiskCalculator.calculate_var, h]
  · intro hc
    simp [z_scores_get, hc]
  · intro hc
    rw [z_scores_get, if_neg (by rw [hc]; norm_num), if_pos hc]
  · intro h1 h2
    simp [z_scores_get, h1, h2]

/-- A one-position portfolio of value 100. -/
def pf_long : Portfolio := ⟨[⟨"LONG", 100, 1, 1⟩], none⟩

theorem calculate_var_zscore_formula_witness :
    pf_long.total_value ≠ 0 ∧
    (RiskCalculator.calculate_var pf_long (97/100) (2/100)).1
      = VarResult.ok ⟨round2 pf_long.total_value,
          round2 (pf_long.total_value * (2/100) * z_scores_get (97/100)),
          (97/100) * 100, (2/100) * 100⟩ ∧
    ((97:ℚ)/100 ≠ 95/100 → (97:ℚ)/100 ≠ 99/100 → z_scores_get (97/100) = 165/100) := by
  have h : pf_long.total_value ≠ 0 := by
    norm_num [pf_long, Portfolio.total_value, Position.value]
  have main := calculate_var_zscore_formula pf_long (97/100) (2/100) h
  exact ⟨h, main.1, main.2.2.2⟩

/-- Definition following claim C7's wording: the additive point table for
the company risk score. -/
def risk_score_table (e : CompanyExposure) : ℕ :=
  (if e.interest_rate_sensitivity = Sensitivity.high then 3
   else if e.interest_rate_sensitivity = Sensitivity.medium then 2 else 0)
  + (if e.inflation_sensitivity = Sensitivity.high ∨
        e.inflation_sensitivity = Sensitivity.negative then 2
     else if e.inflation_sensitivity = Sensitivity.medium then 1 else 0)
  + (if e.volatility_sensitivity = Sensitivity.high then 2
     else if e.volatility_sensitivity = Sensitivity.medium then 1 else 0)
  + (if e.debt_to_equity > 2 then 3 else if e.debt_to_equity > 1 then 1 else 0)
  + (if e.international_revenue > 1/2 then 1 else 0)

/-- The maximal exposure named in claim C7. -/
def max_risk_exposure : CompanyExposure :=
  ⟨"MAXCO", Sensitivity.high, Sensitivity.negative, Sensitivity.high, 5/2, 3/5⟩

/-- Claim C7: risk_score is the stated additive point table, its maximum
attainable value is 11, and the example exposure (interest HIGH, inflation
NEGATIVE, volatility HIGH, debt_to_equity 2.5, international_revenue 0.6)
attains 11. -/
theorem risk_score_spec_sound :
    ∀ e : CompanyExposure,
      e.risk_score = risk_score_table e ∧
      e.risk_score ≤ 11 ∧
      max_risk_exposure.risk_score = 11 := by
  intro e
  have heq : e.risk_score = risk_score_table e := by
    simp only [CompanyExposure.risk_score, risk_score_table]
    omega
  have hb : risk_score_table e ≤ 11 := by
    unfold risk_score_table
    split_ifs <;> norm_num
  refine ⟨heq, heq ▸ hb, ?_⟩
  norm_num [max_risk_exposure, CompanyExposure.risk_score]

/-- Definition following claim C8's wording: systemic level and its fixed
action list as a function of the systemic score. -/
def systemic_level_table (score : ℕ) : String × List String :=
  if 6 < score then
    ("CRITICAL",
      ["Reduce overall portfolio exposure",
       "Implement defensive strategies",
       "Increase cash allocation"])
  else if 3 < score then
    ("ELEVATED",
      ["Review and adjust positions",
       "Consider protective hedges",
       "Monitor daily"])
  else
    ("NORMAL",
      ["Maintain positions",
       "Regular monitoring",
       "Stay informed"])

/-- Claim C8: analyze_systemic_risk reports systemic_score equal to twice
the number of high or critical indicators plus the number of exposures
with risk_score above 5, classifies it by the fixed level/action table,
reports the corresponding name and ticker lists, and does not mutate the
context. -/
theorem analyze_systemic_risk_sound :
    ∀ ctx : EconomicContext,
      (EconomicDataProvider.analyze_systemic_risk ctx).1.systemic_score
        = 2 * ctx.get_high_risk_indicators.length
          + ctx.get_vulnerable_companies.length ∧
      ((EconomicDataProvider.analyze_systemic_risk ctx).1.systemic_level,
        (EconomicDataProvider.analyze_systemic_risk ctx).1.recommended_actions)
        = systemic_level_table
            (EconomicDataProvider.analyze_systemic_risk ctx).1.systemic_score ∧
      (EconomicDataProvider.analyze_systemic_risk ctx).1.high_risk_indicators
        = ctx.get_high_risk_indicators.map EconomicIndicator.name ∧
      (EconomicDataProvider.analyze_systemic_risk ctx).1.vulnerable_companies
        = ctx.get_vulnerable_companies ∧
      (EconomicDataProvider.analyze_systemic_risk ctx).2 = ctx := by
  intro ctx
  refine ⟨?_, ?_, rfl, rfl, rfl⟩
  · show ctx.get_high_risk_indicators.length * 2 + ctx.get_vulnerable_companies.length
      = 2 * ctx.get_high_risk_indicators.length + ctx.get_vulnerable_companies.length
    omega
  · show ((systemic_level_table (ctx.get_high_risk_indicators.length * 2
        + ctx.get_vulnerable_companies.length)).1,
      (systemic_level_table (ctx.get_high_risk_indicators.length * 2
        + ctx.get_vulnerable_companies.length)).2)
      = systemic_level_table (ctx.get_high_risk_indicators.length * 2
        + ctx.get_vulnerable_companies.length)
    exact Prod.mk.eta

theorem assess_risk_level_eq (pf : Portfolio) :
    (RiskCalculator.assess_concentration_risk pf).1.risk_level
      = (if pf.concentration.max > 40 then RiskLevel.CRITICAL
         else if pf.concentration.max > 30 then RiskLevel.HIGH
         else if pf.concentration.max > 20 then RiskLevel.MODERATE
         else RiskLevel.LOW) := rfl

/-- A portfolio whose maximum concentration is exactly 40.0 percent. -/
def pf40 : Portfolio := ⟨[⟨"AAA", 40, 1, 1⟩, ⟨"BBB", 30, 1, 1⟩, ⟨"CCC", 30, 1, 1⟩], none⟩

/-- A portfolio whose maximum concentration is exactly 40.01 percent. -/
def pf4001 : Portfolio :=
  ⟨[⟨"AAA", 4001, 1, 1/100⟩, ⟨"BBB", 2999, 1, 1/100⟩, ⟨"CCC", 3000, 1, 1/100⟩], none⟩

/-- Claim C6: assess_concentration_risk classifies the maximum
concentration by strict thresholds (above 40 CRITICAL, above 30 HIGH,
above 20 MODERATE, otherwise LOW); a maximum of exactly 40.0 is HIGH, not
CRITICAL, and 40.01 is CRITICAL, exhibited on concrete portfolios. -/
theorem assess_concentration_risk_thresholds :
    (∀ pf : Portfolio,
      (40 < pf.concentration.max →
        (RiskCalculator.assess_concentration_risk pf).1.risk_level = RiskLevel.CRITICAL) ∧
      (30 < pf.concentration.max → pf.concentration.max ≤ 40 →
        (RiskCalculator.assess_concentration_risk pf).1.risk_level = RiskLevel.HIGH) ∧
      (20 < pf.concentration.max → pf.concentration.max ≤ 30 →
        (RiskCalculator.assess_concentration_risk pf).1.risk_level = RiskLevel.MODERATE) ∧
      (pf.concentration.max ≤ 20 →
        (RiskCalculator.assess_concentration_risk pf).1.risk_level = RiskLevel.LOW) ∧
      (pf.concentration.max = 40 →
        (RiskCalculator.assess_concentration_risk pf).1.risk_level ≠ RiskLevel.CRITICAL)) ∧
    pf40.concentration.max = 40 ∧
    (RiskCalculator.assess_concentration_risk pf40).1.risk_level = RiskLevel.HIGH ∧
    pf4001.concentration.max = 4001/100 ∧
    (RiskCalculator.assess_concentration_risk pf4001).1.risk_level = RiskLevel.CRITICAL := by
  have hmax40 : pf40.concentration.max = 40 := by
    norm_num [pf40, Portfolio.concentration, Portfolio.total_value, Position.value,
      max_by_value, dict_insert, round2, py_round, Rat.floor]
  have hmax4001 : pf4001.concentration.max = 4001/100 := by
    norm_num [pf4001, Portfolio.concentration, Portfolio.total_value, Position.value,
      max_by_value, dict_insert, round2, py_round, Rat.floor]
  have hgen : ∀ pf : Portfolio,
      (40 < pf.concentration.max →
        (RiskCalculator.assess_concentration_risk pf).1.risk_level = RiskLevel.CRITICAL) ∧
      (30 < pf.concentration.max → pf.concentration.max ≤ 40 →
        (RiskCalculator.assess_concentration_risk pf).1.risk_level = RiskLevel.HIGH) ∧
      (20 < pf.concentration.max → pf.concentration.max ≤ 30 →
        (RiskCalculator.assess_concentration_risk pf).1.risk_level = RiskLevel.MODERATE) ∧
      (pf.concentration.max ≤ 20 →
        (RiskCalculator.assess_concentration_risk pf).1.risk_level = RiskLevel.LOW) ∧
      (pf.concentration.max = 40 →
        (RiskCalculator.assess_concentration_risk pf).1.risk_level ≠ RiskLevel.CRITICAL) := by
    intro pf
    rw [assess_risk_level_eq]
    refine ⟨?_, ?_, ?_, ?_, ?_⟩
    · intro h
      rw [if_pos h]
    · intro h1 h2
      rw [if_neg (by exact not_lt.mpr h2), if_pos h1]
    · intro h1 h2
      rw [if_neg (by exact not_lt.mpr (le_trans h2 (by norm_num))),
        if_neg (by exact not_lt.mpr h2), if_pos h1]
    · intro h
      rw [if_neg (by exact not_lt.mpr (le_trans h (by norm_num))),
        if_neg (by exact not_lt.mpr (le_trans h (by norm_num))),
        if_neg (by exact not_lt.mpr h)]
    · intro h
      rw [if_neg (by rw [h]; norm_num)]
      split_ifs <;> intro hc <;> cases hc
  have h40 : (RiskCalculator.assess_concentration_risk pf40).1.risk_level = RiskLevel.HIGH :=
    (hgen pf40).2.1 (by rw [hmax40]; norm_num) (by rw [hmax40])
  have h4001 : (RiskCalculator.assess_concentration_risk pf4001).1.risk_level
      = RiskLevel.CRITICAL :=
    (hgen pf4001).1 (by rw [hmax4001]; norm_num)
  exact ⟨hgen, hmax40, h40, hmax4001, h4001⟩

theorem assess_concentration_risk_thresholds_witness :
    (RiskCalculator.assess_concentration_risk pf4001).1.risk_level = RiskLevel.CRITICAL ∧
    (RiskCalculator.assess_concentration_risk pf40).1.risk_level ≠ RiskLevel.CRITICAL := by
  refine ⟨(assess_concentration_risk_thresholds.1 pf4001).1 ?_,
    (assess_concentration_risk_thresholds.1 pf40).2.2.2.2 ?_⟩
  · rw [assess_concentration_risk_thresholds.2.2.2.1]
    norm_num
  · exact assess_concentration_risk_thresholds.2.1

/-- Claim C9 (amended): on a portfolio with positive total value, VaR is
monotonically non-decreasing in volatility for any fixed confidence, and,
among the two supported confidence levels, VaR at confidence 0.99 is at
least VaR at confidence 0.95 for any non-negative volatility. -/
theorem calculate_var_monotone :
    ∀ (pf : Portfolio) (confidence v w : ℚ), 0 < pf.total_value →
      (v ≤ w →
        var_of (RiskCalculator.calculate_var pf confidence v).1
          ≤ var_of (RiskCalculator.calculate_var pf confidence w).1) ∧
      (0 ≤ v →
        var_of (RiskCalculator.calculate_var pf (95/100) v).1
          ≤ var_of (RiskCalculator.calculate_var pf (99/100) v).1) := by
  intro pf c v w hT
  have hne := ne_of_gt hT
  have hvar : ∀ (conf vol : ℚ), var_of (RiskCalculator.calculate_var pf conf vol).1
      = round2 (pf.total_value * vol * z_scores_get conf) := by
    intro conf vol
    simp [RiskCalculator.calculate_var, hne, var_of]
  have hz : ∀ conf : ℚ, 0 < z_scores_get conf := by
    intro conf
    unfold z_scores_get
    split_ifs <;> norm_num
  constructor
  · intro hv
    rw [hvar, hvar]
    apply round2_mono
    have h1 : pf.total_value * v ≤ pf.total_value * w :=
      mul_le_mul_of_nonneg_left hv (le_of_lt hT)
    exact mul_le_mul_of_nonneg_right h1 (le_of_lt (hz c))
  · intro hv
    rw [hvar, hvar]
    apply round2_mono
    have h95 : z_scores_get (95/100) = 165/100 := by
      norm_num [z_scores_get]
    have h99 : z_scores_get (99/100) = 233/100 := by
      norm_num [z_scores_get]
    rw [h95, h99]
    have hTv : 0 ≤ pf.total_value * v := mul_nonneg (le_of_lt hT) hv
    exact mul_le_mul_of_nonneg_left (by norm_num) hTv

/-- A one-position portfolio of value -100 (a short position; the source
puts no sign restriction on shares). -/
def pf_short : Portfolio := ⟨[⟨"SHRT", -100, 1, 1⟩], none⟩

/-- Counterexample to claim C9 as stated: with nonzero (negative) total
value, raising volatility from 0.02 to 0.03 strictly lowers VaR; and with
positive total value, raising confidence from 0.99 to 0.995 strictly
lowers VaR because 0.995 silently falls back to the 0.95 z-score. -/
theorem calculate_var_not_monotone_counterexample :
    pf_short.total_value ≠ 0 ∧
    (2:ℚ)/100 ≤ 3/100 ∧
    var_of (RiskCalculator.calculate_var pf_short (95/100) (3/100)).1
      < var_of (RiskCalculator.calculate_var pf_short (95/100) (2/100)).1 ∧
    pf_long.total_value ≠ 0 ∧
    (99:ℚ)/100 ≤ 995/1000 ∧
    var_of (RiskCalculator.calculate_var pf_long (995/1000) (2/100)).1
      < var_of (RiskCalculator.calculate_var pf_long (99/100) (2/100)).1 := by
  refine ⟨?_, by norm_num, ?_, ?_, by norm_num, ?_⟩
  · norm_num [pf_short, Portfolio.total_value, Position.value]
  · norm_num [pf_short, RiskCalculator.calculate_var, Portfolio.total_value, Position.value,
      var_of, z_scores_get, round2, py_round, Rat.floor]
  · norm_num [pf_long, Portfolio.total_value, Position.value]
  · norm_num [pf_long, RiskCalculator.calculate_var, Portfolio.total_value, Position.value,
      var_of, z_scores_get, round2, py_round, Rat.floor]

theorem calculate_var_monotone_witness :
    0 < pf_long.total_value ∧
    (2:ℚ)/100 ≤ 3/100 ∧ (0:ℚ) ≤ 2/100 ∧
    var_of (RiskCalculator.calculate_var pf_long (95/100) (2/100)).1
      ≤ var_of (RiskCalculator.calculate_var pf_long (95/100) (3/100)).1 ∧
    var_of (RiskCalculator.calculate_var pf_long (95/100) (2/100)).1
      ≤ var_of (RiskCalculator.calculate_var pf_long (99/100) (2/100)).1 := by
  have hT : 0 < pf_long.total_value := by
    norm_num [pf_long, Portfolio.total_value, Position.value]
  have main := calculate_var_monotone pf_long (95/100) (2/100) (3/100) hT
  exact ⟨hT, by norm_num, by norm_num, main.1 (by norm_num), main.2 (by norm_num)⟩

/-- Claim C2 (amended): for a non-empty portfolio with positive total
value and pairwise-distinct symbols, the max field of concentration() is
the largest percentage listed under positions (it is attained and bounds
every entry), and the listed percentages sum to 100 within n*0.005 for n
positions, hence within the claimed 0.1 whenever n is at most 20. -/
theorem concentration_distinct_symbols_sound :
    ∀ pf : Portfolio, pf.positions ≠ [] → 0 < pf.total_value →
      (pf.positions.map Position.symbol).Nodup →
      (∀ kv ∈ pf.concentration.positions, kv.2 ≤ pf.concentration.max) ∧
      (∃ kv ∈ pf.concentration.positions, kv.2 = pf.concentration.max) ∧
      |(pf.concentration.positions.map Prod.snd).sum - 100|
        ≤ pf.positions.length * (1/200) ∧
      (pf.positions.length ≤ 20 →
        |(pf.concentration.positions.map Prod.snd).sum - 100| ≤ 1/10) := by
  intro pf hne hT hnd
  obtain ⟨p, ps, hl⟩ : ∃ p ps, pf.positions = p :: ps := by
    cases h : pf.positions with
    | nil => exact absurd h hne
    | cons a l => exact ⟨a, l, rfl⟩
  have hTne : pf.total_value ≠ 0 := ne_of_gt hT
  have hconc := concentration_eq pf p ps hl hTne
  have hdict : pf.concentration.positions
      = (p :: ps).map (fun q => (q.symbol, round2 (q.value / pf.total_value * 100))) := by
    rw [hconc]
    exact dict_build_nodup _ (p :: ps) [] (hl ▸ hnd) (by intro q _ h; simp at h)
  have hmax : pf.concentration.max
      = round2 ((max_by_value p ps).value / pf.total_value * 100) := by
    rw [hconc]
  obtain ⟨hmem, hstart, hall⟩ := max_by_value_spec ps p
  have hmaxmem : max_by_value p ps ∈ p :: ps := by
    rcases hmem with h | h
    · rw [h]
      exact List.mem_cons_self p ps
    · exact List.mem_cons_of_mem p h
  have hge : ∀ q ∈ p :: ps, q.value ≤ (max_by_value p ps).value := by
    intro q hq
    rcases List.mem_cons.mp hq with h | h
    · rw [h]
      exact hstart
    · exact hall q h
  have hpct : ∀ q ∈ p :: ps,
      q.value / pf.total_value * 100 ≤ (max_by_value p ps).value / pf.total_value * 100 := by
    intro q hq
    have h1 : q.value / pf.total_value ≤ (max_by_value p ps).value / pf.total_value :=
      (div_le_div_iff_of_pos_right hT).mpr (hge q hq)
    exact mul_le_mul_of_nonneg_right h1 (by norm_num)
  have hbound : ∀ kv ∈ pf.concentration.positions, kv.2 ≤ pf.concentration.max := by
    intro kv hkv
    rw [hdict] at hkv
    obtain ⟨q, hq, hkveq⟩ := List.mem_map.mp hkv
    rw [← hkveq, hmax]
    exact round2_mono (hpct q hq)
  have hattained : ∃ kv ∈ pf.concentration.positions, kv.2 = pf.concentration.max := by
    refine ⟨(⟨(max_by_value p ps).symbol,
      round2 ((max_by_value p ps).value / pf.total_value * 100)⟩ : String × ℚ), ?_, ?_⟩
    · rw [hdict]
      exact List.mem_map.mpr ⟨max_by_value p ps, hmaxmem, rfl⟩
    · rw [hmax]
  have hsum100 : ((p :: ps).map (fun q => q.value / pf.total_value * 100)).sum = 100 := by
    have e : (fun q : Position => q.value / pf.total_value * 100)
        = (fun q : Position => q.value * (100 / pf.total_value)) := by
      funext q
      ring
    rw [e, sum_map_value_mul]
    have hTsum : ((p :: ps).map Position.value).sum = pf.total_value := by
      rw [Portfolio.total_value, hl]
    rw [hTsum]
    field_simp
  have hsnd : pf.concentration.positions.map Prod.snd
      = ((p :: ps).map (fun q => q.value / pf.total_value * 100)).map round2 := by
    rw [hdict, List.map_map, List.map_map]
    rfl
  have hclose : |(pf.concentration.positions.map Prod.snd).sum - 100|
      ≤ pf.positions.length * (1/200) := by
    rw [hsnd, hl]
    calc |(((p :: ps).map (fun q => q.value / pf.total_value * 100)).map round2).sum - 100|
        = |(((p :: ps).map (fun q => q.value / pf.total_value * 100)).map round2).sum
            - ((p :: ps).map (fun q => q.value / pf.total_value * 100)).sum| := by
          rw [hsum100]
      _ ≤ ((p :: ps).length : ℚ) * (1/200) := by
          have hcl := sum_map_round2_close
            ((p :: ps).map (fun q => q.value / pf.total_value * 100))
          rw [List.length_map] at hcl
          exact hcl
  refine ⟨hbound, hattained, hclose, ?_⟩
  intro h20
  have hcast : ((pf.positions.length : ℚ)) ≤ 20 := by
    exact_mod_cast h20
  have : pf.positions.length * ((1:ℚ)/200) ≤ 20 * (1/200) :=
    mul_le_mul_of_nonneg_right hcast (by norm_num)
  calc |(pf.concentration.positions.map Prod.snd).sum - 100|
      ≤ pf.positions.length * (1/200) := hclose
    _ ≤ 20 * (1/200) := this
    _ = 1/10 := by norm_num

/-- A portfolio holding the same symbol twice (values 60 and 40). -/
def pf_dup : Portfolio := ⟨[⟨"AAA", 60, 1, 1⟩, ⟨"AAA", 40, 1, 1⟩], none⟩

/-- Counterexample to claim C2 as stated: with a duplicated symbol, the
dict comprehension keyed by symbol merges the two positions (the later one
wins), so the reported max of 60 is not listed under positions (which
holds only the 40 entry) and the listed percentages sum to 40, far outside
the 0.1 tolerance around 100. -/
theorem concentration_duplicate_symbols_counterexample :
    pf_dup.positions ≠ [] ∧
    pf_dup.total_value = 100 ∧
    pf_dup.concentration.max = 60 ∧
    pf_dup.concentration.positions = [("AAA", 40)] ∧
    (¬ ∃ kv ∈ pf_dup.concentration.positions, kv.2 = pf_dup.concentration.max) ∧
    ¬ |(pf_dup.concentration.positions.map Prod.snd).sum - 100| ≤ 1/10 := by
  have hmax : pf_dup.concentration.max = 60 := by
    norm_num [pf_dup, Portfolio.concentration, Portfolio.total_value, Position.value,
      max_by_value, dict_insert, round2, py_round, Rat.floor]
  have hpos : pf_dup.concentration.positions = [("AAA", 40)] := by
    norm_num [pf_dup, Portfolio.concentration, Portfolio.total_value, Position.value,
      max_by_value, dict_insert, round2, py_round, Rat.floor]
  refine ⟨by simp [pf_dup], ?_, hmax, hpos, ?_, ?_⟩
  · norm_num [pf_dup, Portfolio.total_value, Position.value]
  · rw [hmax, hpos]
    norm_num
  · rw [hpos]
    norm_num

/-- A three-position portfolio with distinct symbols and values 50, 30, 20. -/
def pf_distinct : Portfolio :=
  ⟨[⟨"AAA", 50, 1, 1⟩, ⟨"BBB", 30, 1, 1⟩, ⟨"CCC", 20, 1, 1⟩], none⟩

theorem concentration_distinct_symbols_sound_witness :
    pf_distinct.positions ≠ [] ∧ 0 < pf_distinct.total_value ∧
    (pf_distinct.positions.map Position.symbol).Nodup ∧
    ((∀ kv ∈ pf_distinct.concentration.positions, kv.2 ≤ pf_distinct.concentration.max) ∧
     (∃ kv ∈ pf_distinct.concentration.positions, kv.2 = pf_distinct.concentration.max) ∧
     |(pf_distinct.concentration.positions.map Prod.snd).sum - 100|
       ≤ pf_distinct.positions.length * (1/200) ∧
     (pf_distinct.positions.length ≤ 20 →
       |(pf_distinct.concentration.positions.map Prod.snd).sum - 100| ≤ 1/10)) := by
  have h1 : pf_distinct.positions ≠ [] := by
    simp [pf_distinct]
  have h2 : 0 < pf_distinct.total_value := by
    norm_num [pf_distinct, Portfolio.total_value, Position.value]
  have h3 : (pf_distinct.positions.map Position.symbol).Nodup := by
    simp [pf_distinct]
  exact ⟨h1, h2, h3, concentration_distinct_symbols_sound pf_distinct h1 h2 h3⟩

/-- A portfolio of three exactly equal positions (distinct symbols). -/
def pf_equal3 : Portfolio := ⟨[⟨"AAA", 1, 1, 1⟩, ⟨"BBB", 1, 1, 1⟩, ⟨"CCC", 1, 1, 1⟩], none⟩

/-- Counterexample to claim C5 as stated: three exactly equal positions
satisfy all of the claim's hypotheses, yet the score is 99.99, not 100,
because the max concentration is rounded to 33.33 before being compared
with the unrounded ideal 100/3. -/
theorem diversification_score_equal3_counterexample :
    pf_equal3.positions.length = 3 ∧
    pf_equal3.total_value ≠ 0 ∧
    (∀ q ∈ pf_equal3.positions, Position.value q = pf_equal3.total_value / 3) ∧
    pf_equal3.diversification_score = 9999/100 ∧
    (9999:ℚ)/100 ≠ 100 := by
  refine ⟨by simp [pf_equal3], ?_, ?_, ?_, by norm_num⟩
  · norm_num [pf_equal3, Portfolio.total_value, Position.value]
  · intro q hq
    simp [pf_equal3] at hq
    rcases hq with h | h | h <;>
      norm_num [h, pf_equal3, Position.value, Portfolio.total_value]
  · norm_num [pf_equal3, Portfolio.diversification_score, Portfolio.concentration,
      Portfolio.total_value, Position.value, max_by_value, dict_insert, round2, py_round,
      Rat.floor, abs_eq_max_neg, max_def]

/-- Claim C5 (amended): the score is 0 for portfolios with at most one
position; and it is 100 for a portfolio of n equally-valued positions
(n at least 2, nonzero total) whenever the ideal percentage 100/n is
exactly representable with two decimals (n divides 10000), as in the
spec's own four-position example. -/
theorem diversification_score_equal_weight :
    ∀ (pf : Portfolio) (n : ℕ), pf.positions.length = n →
      (n ≤ 1 → pf.diversification_score = 0) ∧
      (2 ≤ n → (n:ℤ) ∣ 10000 → pf.total_value ≠ 0 →
        (∀ q ∈ pf.positions, q.value = pf.total_value / n) →
        pf.diversification_score = 100) := by
  intro pf n hlen
  constructor
  · intro h1
    unfold Portfolio.diversification_score
    rw [if_pos (by omega)]
  · intro h2 hdvd hTne heq
    obtain ⟨p, ps, hl⟩ : ∃ p ps, pf.positions = p :: ps := by
      cases h : pf.positions with
      | nil =>
        rw [h] at hlen
        simp at hlen
        omega
      | cons a l => exact ⟨a, l, rfl⟩
    have hnq : ((n:ℚ)) ≠ 0 := by
      have : (0:ℚ) < n := by
        exact_mod_cast Nat.pos_of_ne_zero (by omega)
      exact ne_of_gt this
    obtain ⟨k, hk⟩ := hdvd
    have hkq : (10000:ℚ) = (n:ℚ) * (k:ℚ) := by
      exact_mod_cast hk
    have hform : (100:ℚ)/n = (k:ℚ)/100 := by
      rw [div_eq_div_iff hnq (by norm_num)]
      linarith
    have hmaxmem : max_by_value p ps ∈ pf.positions := by
      rw [hl]
      obtain ⟨hmem, _, _⟩ := max_by_value_spec ps p
      rcases hmem with h | h
      · rw [h]
        exact List.mem_cons_self p ps
      · exact List.mem_cons_of_mem p h
    have hmaxval : (max_by_value p ps).value = pf.total_value / n :=
      heq (max_by_value p ps) hmaxmem
    have hm : pf.concentration.max = (100:ℚ)/n := by
      rw [concentration_eq pf p ps hl hTne]
      show round2 ((max_by_value p ps).value / pf.total_value * 100) = (100:ℚ)/n
      rw [hmaxval]
      have harg : pf.total_value / n / pf.total_value * 100 = (100:ℚ)/n := by
        field_simp
        ring
      rw [harg, hform, round2_intCast_div, ← hform]
    unfold Portfolio.diversification_score
    rw [if_neg (by omega)]
    show round2 (max 0 (100 - |pf.concentration.max - 100 / (pf.positions.length:ℚ)| * 2))
      = 100
    rw [hm, hlen, sub_self, abs_zero]
    norm_num [round2, py_round, Rat.floor, max_def]

/-- A portfolio of four exactly equal positions (distinct symbols). -/
def pf_equal4 : Portfolio :=
  ⟨[⟨"AAA", 1, 1, 1⟩, ⟨"BBB", 1, 1, 1⟩, ⟨"CCC", 1, 1, 1⟩, ⟨"DDD", 1, 1, 1⟩], none⟩

theorem diversification_score_equal_weight_witness :
    pf_equal4.positions.length = 4 ∧
    2 ≤ 4 ∧ ((4:ℤ) ∣ 10000) ∧ pf_equal4.total_value ≠ 0 ∧
    (∀ q ∈ pf_equal4.positions, q.value = pf_equal4.total_value / (4:ℕ)) ∧
    pf_equal4.diversification_score = 100 ∧
    pf_empty.positions.length = 0 ∧
    pf_empty.diversification_score = 0 := by
  have hlen : pf_equal4.positions.length = 4 := by
    simp [pf_equal4]
  have hdvd : (4:ℤ) ∣ 10000 := ⟨2500, by norm_num⟩
  have hTne : pf_equal4.total_value ≠ 0 := by
    norm_num [pf_equal4, Portfolio.total_value, Position.value]
  have heq : ∀ q ∈ pf_equal4.positions, q.value = pf_equal4.total_value / (4:ℕ) := by
    intro q hq
    simp [pf_equal4] at hq
    rcases hq with h | h | h | h <;>
      norm_num [h, pf_equal4, Position.value, Portfolio.total_value]
  have hlen0 : pf_empty.positions.length = 0 := by
    simp [pf_empty]
  exact ⟨hlen, by omega, hdvd, hTne, heq,
    (diversification_score_equal_weight pf_equal4 4 hlen).2 (by omega) hdvd hTne heq,
    hlen0,
    (diversification_score_equal_weight pf_empty 0 hlen0).1 (by omega)⟩

/-- Claim C10: a portfolio of n at least 2 positions whose total value is
0 gets the all-zero/empty concentration structure (max 0), and its
diversification score is round(max(0, 100 - 2*(100/n)), 2), which is
strictly positive for every n at least 3 despite the degenerate
portfolio. -/
theorem degenerate_zero_value_portfolio :
    ∀ pf : Portfolio, 2 ≤ pf.positions.length → pf.total_value = 0 →
      pf.concentration = ⟨0, none, 0, []⟩ ∧
      pf.diversification_score
        = round2 (max 0 (100 - 2 * (100 / (pf.positions.length : ℚ)))) ∧
      (3 ≤ pf.positions.length → 0 < pf.diversification_score) := by
  intro pf hn hT
  have hconc := concentration_zero pf hT
  have hnpos : (0:ℚ) < (pf.positions.length : ℚ) := by
    exact_mod_cast Nat.pos_of_ne_zero (by omega)
  have hds : pf.diversification_score
      = round2 (max 0 (100 - 2 * (100 / (pf.positions.length : ℚ)))) := by
    unfold Portfolio.diversification_score
    rw [if_neg (by omega)]
    show round2 (max 0 (100 - |pf.concentration.max - 100 / (pf.positions.length:ℚ)| * 2))
      = round2 (max 0 (100 - 2 * (100 / (pf.positions.length : ℚ))))
    rw [hconc]
    show round2 (max 0 (100 - |0 - 100 / (pf.positions.length:ℚ)| * 2))
      = round2 (max 0 (100 - 2 * (100 / (pf.positions.length : ℚ))))
    rw [zero_sub, abs_neg, abs_of_nonneg (le_of_lt (by positivity))]
    congr 1
    congr 1
    ring
  refine ⟨hconc, hds, ?_⟩
  intro h3
  rw [hds]
  have hc3 : (3:ℚ) ≤ (pf.positions.length : ℚ) := by
    exact_mod_cast h3
  have hdivle : 100 / (pf.positions.length : ℚ) ≤ 100/3 :=
    div_le_div_of_nonneg_left (by norm_num) (by norm_num) hc3
  have h13 : (100:ℚ)/3 ≤ 100 - 2 * (100 / (pf.positions.length : ℚ)) := by
    linarith
  have hmono : round2 ((100:ℚ)/3)
      ≤ round2 (max 0 (100 - 2 * (100 / (pf.positions.length : ℚ)))) :=
    round2_mono (le_trans h13 (le_max_right _ _))
  have hval : round2 ((100:ℚ)/3) = 3333/100 := by
    norm_num [round2, py_round, Rat.floor]
  rw [hval] at hmono
  linarith

/-- A portfolio of four zero-value positions. -/
def pf_zero4 : Portfolio :=
  ⟨[⟨"AAA", 0, 1, 1⟩, ⟨"BBB", 0, 1, 1⟩, ⟨"CCC", 0, 1, 1⟩, ⟨"DDD", 0, 1, 1⟩], none⟩

theorem degenerate_zero_value_portfolio_witness :
    2 ≤ pf_zero4.positions.length ∧
    pf_zero4.total_value = 0 ∧
    (pf_zero4.concentration = ⟨0, none, 0, []⟩ ∧
     pf_zero4.diversification_score
       = round2 (max 0 (100 - 2 * (100 / (pf_zero4.positions.length : ℚ)))) ∧
     (3 ≤ pf_zero4.positions.length → 0 < pf_zero4.diversification_score)) ∧
    pf_zero4.diversification_score = 50 := by
  have h1 : 2 ≤ pf_zero4.positions.length := by
    simp [pf_zero4]
  have h2 : pf_zero4.total_value = 0 := by
    norm_num [pf_zero4, Portfolio.total_value, Position.value]
  have main := degenerate_zero_value_portfolio pf_zero4 h1 h2
  refine ⟨h1, h2, main, ?_⟩
  rw [main.2.1]
  norm_num [pf_zero4, round2, py_round, Rat.floor, max_def]
